import Mathlib

/-!
# Verification of the Mountrix fstab-management core

A shallow embedding, over `List Char` strings, of the core functions of
`mountrix.core.fstab`, `mountrix.core.mounter` and `mountrix.core.templates`,
together with theorems settling the specification claims about them.

Python strings are modelled as `List Char` (named `Str` here); Python string
primitives used by the code (`strip`, `split`, `join`, `lower`, `in`,
`startswith`, `str.isdigit`, `int()`, `str(int)`, `"%Y%m%d_%H%M%S"`
formatting, `str.format`) are given explicit executable definitions with the
Python semantics on ASCII data.  Filesystem and subprocess effects are made
explicit: file contents, backup files and tool results are arguments and
results of the embedded functions.
-/

namespace Mountrix

/-- Python strings, modelled as lists of characters. -/
abbrev Str := List Char

/-- The whitespace characters stripped by Python `str.strip()` and matched by
`\s` in `re.split`, restricted to ASCII: space, tab, newline, carriage
return, vertical tab, form feed. -/
def isPySpace (c : Char) : Bool :=
  c.toNat = 32 || c.toNat = 9 || c.toNat = 10 || c.toNat = 13 ||
    c.toNat = 11 || c.toNat = 12

/-- Python `str.lstrip()`. -/
def pyStripL (s : Str) : Str := s.dropWhile isPySpace

/-- Python `str.strip()`: drop whitespace from both ends. -/
def pyStrip (s : Str) : Str := ((pyStripL s).reverse.dropWhile isPySpace).reverse

/-- Split a string at every character satisfying `p`, keeping empty segments:
the semantics of Python `str.split(sep)` for a one-character separator when
`p = (· = sep)`. -/
def splitOnP (p : Char → Bool) : Str → List Str
  | [] => [[]]
  | c :: cs =>
    if p c then [] :: splitOnP p cs
    else
      match splitOnP p cs with
      | [] => [[c]]
      | r :: rs => (c :: r) :: rs

/-- Python `sep.join(xs)`. -/
def joinSep (sep : Str) : List Str → Str
  | [] => []
  | [x] => x
  | x :: xs => x ++ sep ++ joinSep sep xs

/-- Python `re.split(r"\s+", s.strip())` as used by `_parse_fstab_line`:
whitespace-run splitting of the stripped line (empty segments removed). -/
def pySplitWs (s : Str) : List Str :=
  (splitOnP isPySpace (pyStrip s)).filter (fun t => t ≠ [])

/-- Decimal digits of a natural number, Python `str(n)` for `n ≥ 0`. -/
def natRepr (n : Nat) : Str := Nat.toDigits 10 n

/-- Python `str(i)` for an `int`. -/
def intRepr (i : Int) : Str :=
  if i < 0 then '-' :: natRepr i.natAbs else natRepr i.natAbs

/-- Python `str.isdigit()` (ASCII): non-empty and all decimal digits. -/
def pyIsDigit (s : Str) : Bool := s ≠ [] && s.all Char.isDigit

/-- Python `int(s)` on an all-digit string. -/
def strToNat (s : Str) : Nat :=
  s.foldl (fun a c => a * 10 + (c.toNat - '0'.toNat)) 0

/-- Python `str.lower()` on an ASCII character. -/
def pyToLower (c : Char) : Char :=
  if 65 ≤ c.toNat ∧ c.toNat ≤ 90 then Char.ofNat (c.toNat + 32) else c

/-- Python `str.lower()`. -/
def toLowerStr (s : Str) : Str := s.map pyToLower

/-- `strHasPre s p`: `s` begins with `p` (Python `s.startswith(p)`). -/
def strHasPre : Str → Str → Bool
  | _, [] => true
  | [], _ :: _ => false
  | c :: cs, d :: ds => c = d && strHasPre cs ds

/-- `strHasSub s t`: `t` occurs as a contiguous substring of `s`
(Python `t in s`). -/
def strHasSub : Str → Str → Bool
  | [], t => strHasPre [] t
  | c :: cs, t => strHasPre (c :: cs) t || strHasSub cs t

/-- An ASCII apostrophe, used inside embedded message strings. -/
def sq : Char := Char.ofNat 39

/-! ## The MountRecord data model (`FstabEntry` in `mountrix.core.fstab`) -/

/-- `FstabEntry`: one mount-table record. -/
structure FstabEntry where
  source : Str
  mountpoint : Str
  fstype : Str
  options : List Str := ["defaults".data]
  dump : Int := 0
  pass_num : Int := 0
  comment : Option Str := none
deriving DecidableEq, Repr

namespace FstabEntry

/-- `FstabEntry.__str__`: render the record as one fstab line
(tab-separated, options comma-joined, `"defaults"` when the list is empty). -/
def render (e : FstabEntry) : Str :=
  let opts := if e.options ≠ [] then joinSep [','] e.options else "defaults".data
  e.source ++ '\t' :: e.mountpoint ++ '\t' :: e.fstype ++ '\t' :: opts ++
    '\t' :: intRepr e.dump ++ '\t' :: intRepr e.pass_num

/-- `FstabEntry.is_network`. -/
def is_network (e : FstabEntry) : Bool :=
  e.fstype = "nfs".data || e.fstype = "nfs4".data ||
    e.fstype = "cifs".data || e.fstype = "smb".data

end FstabEntry

/-! ## Parsing (`parse_fstab`, `_parse_fstab_line`) -/

/-- `_parse_fstab_line`: split one (already stripped, non-comment) line on
whitespace runs; fewer than 4 fields is a skip (`None`); fields 4 and 5
parse as integers only when present and all digits, else default to 0. -/
def parse_fstab_line (line : Str) (comment : Option Str) : Option FstabEntry :=
  let parts := pySplitWs line
  if parts.length < 4 then none
  else some
    { source := parts.getD 0 []
      mountpoint := parts.getD 1 []
      fstype := parts.getD 2 []
      options :=
        if parts.getD 3 [] ≠ [] then splitOnP (fun c => c = ',') (parts.getD 3 [])
        else ["defaults".data]
      dump :=
        if 4 < parts.length ∧ pyIsDigit (parts.getD 4 []) then
          (strToNat (parts.getD 4 []) : Int)
        else 0
      pass_num :=
        if 5 < parts.length ∧ pyIsDigit (parts.getD 5 []) then
          (strToNat (parts.getD 5 []) : Int)
        else 0
      comment := comment }

/-- The line-by-line loop of `parse_fstab`: blank lines reset the pending
comment, `#` lines set it, data lines consume it (and reset it whether or not
they parse). -/
def parseLines : List Str → Option Str → List FstabEntry
  | [], _ => []
  | l :: ls, cur =>
    let line := pyStrip l
    if line = [] then parseLines ls none
    else if strHasPre line ['#'] then parseLines ls (some (pyStrip line.tail))
    else
      match parse_fstab_line line cur with
      | some e => e :: parseLines ls none
      | none => parseLines ls none

/-- `parse_fstab` applied to the file's content (the file is read line by
line; lines are the `'\n'`-separated segments of the content). -/
def parse_fstab (content : Str) : List FstabEntry :=
  parseLines (splitOnP (fun c => c = '\n') content) none

/-! ## Validation (`validate_entry`) -/

/-- `validate_entry`: returns `(is_valid, error_message)`.  The checks run in
source order, short-circuiting: non-empty source; non-empty mountpoint;
mountpoint starts with `/`; (the special-mountpoint branch for
`none`/`swap`/`/` performs no check: `Path(...)` construction never fails);
non-empty fstype; non-empty options; dump ∈ {0,1,2}; pass_num ∈ {0,1,2}. -/
def validate_entry (e : FstabEntry) : Bool × Option Str :=
  if e.source = [] then (false, some "Source cannot be empty".data)
  else if e.mountpoint = [] then (false, some "Mountpoint cannot be empty".data)
  else if ¬ strHasPre e.mountpoint ['/'] then
    (false, some "Mountpoint must be absolute path".data)
  else if e.fstype = [] then
    (false, some "Filesystem type cannot be empty".data)
  else if e.options = [] then
    (false, some ("Options cannot be empty (use ".data ++ sq :: "defaults".data
      ++ sq :: " at minimum)".data))
  else if ¬ (e.dump = 0 ∨ e.dump = 1 ∨ e.dump = 2) then
    (false, some "Dump must be 0, 1, or 2".data)
  else if ¬ (e.pass_num = 0 ∨ e.pass_num = 1 ∨ e.pass_num = 2) then
    (false, some "Pass number must be 0, 1, or 2".data)
  else (true, none)

/-! ## Serialization (`_generate_fstab_content`) -/

/-- The two boilerplate header lines of a regenerated table. -/
def headerLines : List Str := ["# /etc/fstab: static file system information".data, []]

/-- The lines contributed by one record: an optional `# <comment>` line
(only when the comment is present and non-empty, Python truthiness), then
the rendered record line. -/
def entryLines (e : FstabEntry) : List Str :=
  (match e.comment with
   | some c => if c ≠ [] then ['#' :: ' ' :: c] else []
   | none => []) ++ [e.render]

/-- `"\n".join(lines)`. -/
def joinNL : List Str → Str := joinSep ['\n']

/-- `_generate_fstab_content`: header lines, per-record lines, joined with
newlines, plus a trailing newline. -/
def generate_fstab_content (entries : List FstabEntry) : Str :=
  joinNL (headerLines ++ entries.flatMap entryLines) ++ ['\n']

/-! ## Backup and add (`backup_fstab`, `add_entry`)

The filesystem effects are made explicit: the state records the fstab file's
content (`none` when the file is absent), whether the backup directory
exists, and the backup files created (filename, content).  `datetime.now()`
is an explicit argument. -/

/-- A wall-clock instant, as consumed by `datetime.strftime`. -/
structure DateTime where
  year : Nat
  month : Nat
  day : Nat
  hour : Nat
  minute : Nat
  second : Nat
deriving DecidableEq, Repr

/-- Zero-pad the decimal representation of `n` to width `w`. -/
def padNat (w : Nat) (n : Nat) : Str :=
  List.replicate (w - (natRepr n).length) '0' ++ natRepr n

/-- `datetime.strftime("%Y%m%d_%H%M%S")`: the second-granularity timestamp
used in backup filenames. -/
def strftimeTs (t : DateTime) : Str :=
  padNat 4 t.year ++ padNat 2 t.month ++ padNat 2 t.day ++ '_' ::
    (padNat 2 t.hour ++ padNat 2 t.minute ++ padNat 2 t.second)

/-- `os.path.basename` / `Path(...).name`: the final `/`-separated component
(used to state what C5 claims about the backup filename). -/
def pyBasename (p : Str) : Str :=
  (splitOnP (fun c => c = '/') p).getLastD []

/-- Explicit filesystem state for the table store. -/
structure SysState where
  fstabContent : Option Str
  backupDirExists : Bool
  backupFiles : List (Str × Str)
deriving DecidableEq, Repr

/-- `backup_fstab`: fails when the fstab file is absent; otherwise creates the
backup directory (`mkdir(parents=True, exist_ok=True)`), copies the file
byte-for-byte to `backup_dir/fstab.backup.<timestamp>` and returns that path.
The result is the error (if any), the returned path, and the new state. -/
def backup_fstab (st : SysState) (fstab_path backup_dir : Str) (now : DateTime) :
    Option Str × Str × SysState :=
  match st.fstabContent with
  | none => (some ("fstab not found: ".data ++ fstab_path), [], st)
  | some content =>
    let fname := "fstab.backup.".data ++ strftimeTs now
    let bpath := backup_dir ++ '/' :: fname
    (none, bpath,
      { st with backupDirExists := true, backupFiles := st.backupFiles ++ [(fname, content)] })

/-- The text appended to the fstab file by `add_entry` on success: an optional
`# <comment>` line, then the rendered record line. -/
def appendText (e : FstabEntry) : Str :=
  (match e.comment with
   | some c => if c ≠ [] then '#' :: ' ' :: c ++ ['\n'] else []
   | none => []) ++ e.render ++ ['\n']

/-- `add_entry`: validate; back up (when requested); reject a duplicate
mountpoint; append.  Returns the raised error (if any) and the final
filesystem state. -/
def add_entry (e : FstabEntry) (st : SysState) (fstab_path backup_dir : Str)
    (now : DateTime) (create_backup : Bool) : Option Str × SysState :=
  if (validate_entry e).1 = false then
    (some ("Invalid fstab entry: ".data ++ ((validate_entry e).2.getD [])), st)
  else
    let (berr, _, st1) :=
      match create_backup with
      | true => backup_fstab st fstab_path backup_dir now
      | false => (none, [], st)
    match berr with
    | some m => (some m, st1)
    | none =>
      match st1.fstabContent with
      | none => (some ("fstab not found: ".data ++ fstab_path), st1)
      | some content =>
        if (parse_fstab content).any (fun ex => ex.mountpoint = e.mountpoint) then
          (some ("Mountpoint ".data ++ e.mountpoint ++ " already exists in fstab".data), st1)
        else
          (none, { st1 with fstabContent := some (content ++ appendText e) })

/-! ## Mount orchestration (`mounter.py`)

Subprocess execution is an explicit collaborator: a `ToolResult` carries the
tool's exit code, stdout and stderr.  Mountpoint existence is an explicit
boolean argument. -/

/-- `MountResult`. -/
structure MountResult where
  success : Bool
  message : Str
  mountpoint : Option Str := none
  error_code : Option Int := none
deriving DecidableEq, Repr

/-- The outcome of a `subprocess.run` invocation of the external tool. -/
structure ToolResult where
  returncode : Int
  stdout : Str
  stderr : Str
deriving DecidableEq, Repr

/-- `unmount_entry` (the non-exceptional subprocess path): empty mountpoint
and missing mountpoint fail early; exit 0 succeeds; otherwise the error text
is the stripped stderr, or the stripped stdout when that is empty, and is
inspected case-insensitively -- `"not mounted"` is an idempotent success,
else `"busy"`/`"target is busy"` is the device-busy failure with a
force/close-consumers suggestion, else a generic failure. -/
def unmount_entry (mountpoint : Str) (mpExists : Bool) (tool : ToolResult) :
    MountResult :=
  if mountpoint = [] then
    { success := false, message := "Mountpoint cannot be empty".data }
  else if mpExists = false then
    { success := false, message := "Mountpoint does not exist: ".data ++ mountpoint }
  else if tool.returncode = 0 then
    { success := true, message := "Successfully unmounted ".data ++ mountpoint
      mountpoint := some mountpoint }
  else
    let error_msg := if pyStrip tool.stderr ≠ [] then pyStrip tool.stderr
                     else pyStrip tool.stdout
    if strHasSub (toLowerStr error_msg) "not mounted".data then
      { success := true, message := mountpoint ++ " is not mounted".data
        mountpoint := some mountpoint }
    else if strHasSub (toLowerStr error_msg) "busy".data ||
        strHasSub (toLowerStr error_msg) "target is busy".data then
      { success := false
        message := "Unmount failed: Device is busy. Try force unmount or close applications using this mount.".data
        error_code := some tool.returncode }
    else
      { success := false, message := "Unmount failed: ".data ++ error_msg
        error_code := some tool.returncode }

/-- The result of `remount_entry` together with which steps ran: the
mount-state reader's answer, the unmount result and the mount result are
explicit collaborators; the flags record whether unmount / mount were
invoked. -/
structure RemountOutcome where
  result : MountResult
  unmountCalled : Bool
  mountCalled : Bool
deriving DecidableEq, Repr

/-- `remount_entry`: empty mountpoint fails; otherwise unmount first only if
`verify_mount` reports the mountpoint mounted, aborting (without mounting)
when that unmount fails; then mount. -/
def remount_entry (e : FstabEntry) (isMounted : Bool)
    (unmountRes mountRes : MountResult) : RemountOutcome :=
  if e.mountpoint = [] then
    ⟨{ success := false, message := "Invalid entry".data }, false, false⟩
  else if isMounted then
    if unmountRes.success = false then
      ⟨{ success := false
         message := "Failed to unmount before remounting: ".data ++ unmountRes.message },
        true, false⟩
    else ⟨mountRes, true, true⟩
  else ⟨mountRes, false, true⟩

/-! ## Templates (`templates.py`) -/

/-- `NASTemplate`. -/
structure NASTemplate where
  id : Str
  name : Str
  protocol : Str
  default_port : Int
  default_share_path : Str
  default_options : List Str
  auth_method : Str
  description : Str
  help_url : Str
  notes : Option Str := none
  nfs_support : Bool := false
  nfs_options : Option (List Str) := none
  legacy_smb : Bool := false
deriving DecidableEq, Repr

/-- The `user_input` mapping: an association list with unique keys
(Python `dict`). -/
abbrev Dict := List (Str × Str)

/-- Python `d.get(k)` / `d[k]` lookup. -/
def dictGet (d : Dict) (k : Str) : Option Str :=
  (d.find? (fun p => p.1 = k)).map (fun p => p.2)

/-- Python `k in d`. -/
def dictHas (d : Dict) (k : Str) : Bool := (dictGet d k).isSome

/-- Scan up to the first `'}'`: returns the field name before it and the
remainder after it, or `none` when no `'}'` occurs. -/
def splitBrace : Str → Option (Str × Str)
  | [] => none
  | c :: rest =>
    if c = '}' then some ([], rest)
    else (splitBrace rest).map (fun p => (c :: p.1, p.2))

/-- The remainder produced by `splitBrace` is shorter than its input. -/
theorem splitBrace_length {s fld rest : Str} (h : splitBrace s = some (fld, rest)) :
    rest.length < s.length := by
  induction s generalizing fld rest with
  | nil => simp [splitBrace] at h
  | cons c cs ih =>
    simp only [splitBrace] at h
    by_cases hc : c = '}'
    · simp [hc] at h
      simp [h.2.symm]
    · simp only [hc, if_false, Option.map_eq_some'] at h
      obtain ⟨⟨a, b⟩, hab, hfr⟩ := h
      have := ih hab
      cases hfr
      simp
      omega

set_option linter.unusedVariables false in
/-- Python `str.format(**d)` restricted to plain `{name}` placeholders (with
`{{`/`}}` escapes): `none` models the `KeyError`/`ValueError` the real call
raises on a missing key or malformed pattern. -/
def pyFormat (d : Dict) : Str → Option Str
  | [] => some []
  | '{' :: '{' :: rest => (pyFormat d rest).map (fun r => '{' :: r)
  | '}' :: '}' :: rest => (pyFormat d rest).map (fun r => '}' :: r)
  | '{' :: rest =>
    match hs : splitBrace rest with
    | some (fld, rest2) =>
      match dictGet d fld with
      | some v => (pyFormat d rest2).map (fun r => v ++ r)
      | none => none
    | none => none
  | '}' :: _ => none
  | c :: rest => (pyFormat d rest).map (fun r => c :: r)
termination_by s => s.length
decreasing_by
  all_goals simp_wf
  all_goals try omega
  · have := splitBrace_length hs
    omega

/-- The protocol selected by `apply_template`. -/
def selectedProtocol (t : NASTemplate) (use_nfs : Bool) : Str :=
  if use_nfs then
    (if strHasSub t.protocol "nfs".data then "nfs".data else "nfs4".data)
  else t.protocol

/-- The options list selected by `apply_template` before credential and
uid/gid injection (Python `template.nfs_options or ["defaults"]` treats both
`None` and `[]` as absent). -/
def selectedOptions (t : NASTemplate) (use_nfs : Bool) : List Str :=
  if use_nfs then
    match t.nfs_options with
    | some o => if o ≠ [] then o else ["defaults".data]
    | none => ["defaults".data]
  else t.default_options

/-- The options list after credential injection. -/
def optionsWithCreds (t : NASTemplate) (d : Dict) (use_nfs : Bool) : List Str :=
  let options := selectedOptions t use_nfs
  if t.auth_method = "credentials".data then
    match dictGet d "credentials_file".data with
    | some cf => options ++ ["credentials=".data ++ cf]
    | none =>
      match dictGet d "username".data with
      | some u =>
        (options ++ ["username=".data ++ u]) ++
          (match dictGet d "password".data with
           | some p => ["password=".data ++ p]
           | none => [])
      | none => options
  else options

/-- `f"uid={user_input.get('uid')}"` (a missing key prints as `None`). -/
def uidStr (d : Dict) : Str :=
  "uid=".data ++ ((dictGet d "uid".data).getD "None".data)

/-- `f"gid={user_input.get('gid')}"`. -/
def gidStr (d : Dict) : Str :=
  "gid=".data ++ ((dictGet d "gid".data).getD "None".data)

/-- The uid-injection step: append `uid=<uid>` when the key is present and the
literal string is not a substring of the comma-joined options. -/
def uidStep (d : Dict) (options : List Str) : List Str :=
  if dictHas d "uid".data ∧ strHasSub (joinSep [','] options) (uidStr d) = false then
    options ++ [uidStr d]
  else options

/-- The gid-injection step, run after the uid step. -/
def gidStep (d : Dict) (options : List Str) : List Str :=
  if dictHas d "gid".data ∧ strHasSub (joinSep [','] options) (gidStr d) = false then
    options ++ [gidStr d]
  else options

/-- `apply_template`: check required fields (collecting all missing ones),
check NFS support, select protocol and options, build the source path
(cifs/smb -> `//host/share`; nfs/nfs4 -> `host:` + (`share` or else `export`);
otherwise the formatted `default_share_path`), inject credentials and
uid/gid, and build the record. -/
def apply_template (t : NASTemplate) (d : Dict) (use_nfs : Bool) :
    Except Str FstabEntry :=
  let missing := (["host".data, "mountpoint".data]).filter (fun f => ¬ dictHas d f)
  if missing ≠ [] then
    .error ("Missing required fields: ".data ++ joinSep ", ".data missing)
  else if use_nfs ∧ t.nfs_support = false then
    .error (t.name ++ " does not support NFS".data)
  else
    let protocol := selectedProtocol t use_nfs
    let host := (dictGet d "host".data).getD []
    let sourceE : Except Str Str :=
      if protocol = "cifs".data ∨ protocol = "smb".data then
        .ok ('/' :: '/' :: host ++ '/' :: ((dictGet d "share".data).getD []))
      else if protocol = "nfs".data ∨ protocol = "nfs4".data then
        .ok (host ++ ':' ::
          ((dictGet d "share".data).getD ((dictGet d "export".data).getD [])))
      else
        match pyFormat d t.default_share_path with
        | some s => .ok s
        | none => .error "KeyError in default_share_path.format".data
    match sourceE with
    | .error m => .error m
    | .ok source =>
      let options := gidStep d (uidStep d (optionsWithCreds t d use_nfs))
      .ok { source := source
            mountpoint := (dictGet d "mountpoint".data).getD []
            fstype := protocol
            options := options
            dump := 0
            pass_num := 0
            comment := some (t.name ++ ' ' :: '-' :: ' ' :: t.description) }

/-! ## Well-formedness (serializable records)

The round-trip property needs, beyond `validate_entry`, that the record's
fields survive the textual format: fields without whitespace, options without
commas, a comment that is its own strip.  ASCII is required because the
embedding models Python's `str.strip`/`\s`/`str.lower` on ASCII only. -/

/-- An ASCII, non-empty, whitespace-free field. -/
def goodField (s : Str) : Bool :=
  s ≠ [] && s.all (fun c => !isPySpace c && c.toNat ≤ 127)

/-- A mount option that also contains no comma (the option separator). -/
def goodOption (s : Str) : Bool :=
  goodField s && s.all (fun c => c ≠ ',')

/-- A serializable comment: absent, or non-empty ASCII with no newline or
carriage return and no leading/trailing whitespace. -/
def goodComment : Option Str → Bool
  | none => true
  | some c =>
    c ≠ [] && !isPySpace c.headI && !isPySpace c.getLastI &&
      c.all (fun x => x ≠ '\n' && x ≠ '\r' && x.toNat ≤ 127)

/-- A record whose textual rendering parses back unchanged (given it also
passes `validate_entry`). -/
def wellFormed (e : FstabEntry) : Bool :=
  goodField e.source && e.source.headI ≠ '#' && goodField e.mountpoint &&
    goodField e.fstype && e.options ≠ [] && e.options.all goodOption &&
    goodComment e.comment

/-- A sample record (root ext4 line) used to evaluate the development on
concrete data. -/
def sampleRec1 : FstabEntry :=
  { source := "UUID=abc-123".data, mountpoint := "/".data,
    fstype := "ext4".data, options := ["defaults".data], dump := 0,
    pass_num := 1, comment := none }

/-- A sample record (commented network mount) used to evaluate the
development on concrete data. -/
def sampleRec2 : FstabEntry :=
  { source := "//nas.local/share".data, mountpoint := "/mnt/nas".data,
    fstype := "cifs".data,
    options := ["credentials=/home/user/.nascreds".data, "uid=1000".data],
    dump := 0, pass_num := 0, comment := some "My NAS".data }

/-! ## String lemma library -/

theorem strHasPre_iff (s p : Str) : strHasPre s p = true ↔ ∃ t, s = p ++ t := by
  induction p generalizing s with
  | nil =>
    simp only [List.nil_append]
    exact ⟨fun _ => ⟨s, rfl⟩, fun _ => by cases s <;> rfl⟩
  | cons d ds ih =>
    cases s with
    | nil =>
      simp only [strHasPre, List.cons_append]
      constructor
      · intro h; cases h
      · rintro ⟨t, h⟩; cases h
    | cons c cs =>
      simp only [strHasPre, List.cons_append, Bool.and_eq_true, decide_eq_true_eq, ih]
      constructor
      · rintro ⟨rfl, t, rfl⟩; exact ⟨t, rfl⟩
      · rintro ⟨t, h⟩
        injection h with h1 h2
        exact ⟨h1, t, h2⟩

theorem strHasSub_iff (s n : Str) : strHasSub s n = true ↔ ∃ a b, s = a ++ n ++ b := by
  induction s with
  | nil =>
    rw [strHasSub, strHasPre_iff]
    constructor
    · rintro ⟨t, h⟩; exact ⟨[], t, by simpa using h⟩
    · rintro ⟨a, b, h⟩
      rw [List.append_assoc] at h
      obtain ⟨ha, hb⟩ := List.append_eq_nil.mp h.symm
      exact ⟨b, by simp [hb, List.append_eq_nil.mp hb]⟩
  | cons c cs ih =>
    rw [strHasSub, Bool.or_eq_true, strHasPre_iff, ih]
    constructor
    · rintro (⟨t, ht⟩ | ⟨a, b, hab⟩)
      · exact ⟨[], t, by simpa using ht⟩
      · exact ⟨c :: a, b, by simp [hab]⟩
    · rintro ⟨a, b, hab⟩
      cases a with
      | nil => exact Or.inl ⟨b, by simpa using hab⟩
      | cons x xs =>
        injection hab with h1 h2
        exact Or.inr ⟨xs, b, h2⟩

theorem strHasSub_of_middle (a n b : Str) : strHasSub (a ++ n ++ b) n = true :=
  (strHasSub_iff _ _).mpr ⟨a, b, rfl⟩

theorem splitOnP_all_neg (p : Char → Bool) (l : Str) (h : ∀ c ∈ l, p c = false) :
    splitOnP p l = [l] := by
  induction l with
  | nil => rfl
  | cons c cs ih =>
    have hc : p c = false := h c (List.mem_cons_self c cs)
    rw [splitOnP, if_neg (by simp [hc]), ih (fun x hx => h x (List.mem_cons_of_mem c hx))]

theorem splitOnP_append (p : Char → Bool) (l rest : Str) (sep : Char)
    (hl : ∀ c ∈ l, p c = false) (hs : p sep = true) :
    splitOnP p (l ++ sep :: rest) = l :: splitOnP p rest := by
  induction l with
  | nil => simp [splitOnP, hs]
  | cons c cs ih =>
    have hc : p c = false := hl c (List.mem_cons_self c cs)
    rw [List.cons_append, splitOnP, if_neg (by simp [hc]),
      ih (fun x hx => hl x (List.mem_cons_of_mem c hx))]

theorem headI_reverse (s : Str) : s.reverse.headI = s.getLastI := by
  rw [List.getLastI_eq_getLast?, ← List.head?_reverse]
  cases s.reverse <;> rfl

theorem getLastI_append {a b : Str} (hb : b ≠ []) : (a ++ b).getLastI = b.getLastI := by
  rw [List.getLastI_eq_getLast?, List.getLastI_eq_getLast?, List.getLast?_append]
  cases hb' : b.getLast? with
  | none => exact absurd (List.getLast?_eq_none_iff.mp hb') hb
  | some x => rfl

theorem pyStripR_eq_self {s : Str} (hne : s ≠ []) (h2 : isPySpace s.getLastI = false) :
    (s.reverse.dropWhile isPySpace).reverse = s := by
  have hrne : s.reverse ≠ [] := by simpa using hne
  obtain ⟨d, ds, hd⟩ := List.exists_cons_of_ne_nil hrne
  have hdval : isPySpace d = false := by
    have h := headI_reverse s
    rw [hd] at h
    simpa [← h] using h2
  rw [hd, List.dropWhile_cons_of_neg (by simp [hdval]), ← hd, List.reverse_reverse]

theorem pyStrip_eq_self {s : Str} (hne : s ≠ [])
    (h1 : isPySpace s.headI = false) (h2 : isPySpace s.getLastI = false) :
    pyStrip s = s := by
  obtain ⟨c, cs, rfl⟩ := List.exists_cons_of_ne_nil hne
  unfold pyStrip pyStripL
  rw [List.dropWhile_cons_of_neg (by simpa using h1)]
  exact pyStripR_eq_self hne h2

theorem pyStrip_ws_cons {w : Char} {c : Str} (hw : isPySpace w = true) (hne : c ≠ [])
    (h1 : isPySpace c.headI = false) (h2 : isPySpace c.getLastI = false) :
    pyStrip (w :: c) = c := by
  obtain ⟨x, xs, rfl⟩ := List.exists_cons_of_ne_nil hne
  unfold pyStrip pyStripL
  rw [List.dropWhile_cons_of_pos (by simp [hw]),
    List.dropWhile_cons_of_neg (by simpa using h1)]
  exact pyStripR_eq_self hne h2

theorem dropWhile_append_middle (p : Char → Bool) (a n b : Str) (hn : n ≠ [])
    (hh : p n.headI = false) :
    ∃ a2, List.dropWhile p (a ++ n ++ b) = a2 ++ n ++ b := by
  induction a with
  | nil =>
    obtain ⟨c, cs, rfl⟩ := List.exists_cons_of_ne_nil hn
    refine ⟨[], ?_⟩
    simp only [List.nil_append, List.cons_append]
    rw [List.dropWhile_cons_of_neg (by simpa using hh)]
  | cons x xs ih =>
    by_cases hx : p x = true
    · obtain ⟨a2, ha2⟩ := ih
      refine ⟨a2, ?_⟩
      simp only [List.cons_append]
      rw [List.dropWhile_cons_of_pos hx]
      simpa using ha2
    · refine ⟨x :: xs, ?_⟩
      simp only [List.cons_append]
      rw [List.dropWhile_cons_of_neg (by simpa using hx)]

theorem pyStrip_infix (s : Str) : ∃ a b, s = a ++ pyStrip s ++ b := by
  refine ⟨s.takeWhile isPySpace, ((pyStripL s).reverse.takeWhile isPySpace).reverse, ?_⟩
  conv_lhs => rw [← List.takeWhile_append_dropWhile isPySpace s]
  unfold pyStrip
  have hd : (pyStripL s).reverse.takeWhile isPySpace ++
      (pyStripL s).reverse.dropWhile isPySpace = (pyStripL s).reverse :=
    List.takeWhile_append_dropWhile _ _
  have : pyStripL s =
      ((pyStripL s).reverse.dropWhile isPySpace).reverse ++
        ((pyStripL s).reverse.takeWhile isPySpace).reverse := by
    conv_lhs => rw [← List.reverse_reverse (pyStripL s), ← hd]
    rw [List.reverse_append]
  rw [List.append_assoc, ← this]
  rfl

theorem strHasSub_pyStrip_mono {s n : Str} (h : strHasSub (pyStrip s) n = true) :
    strHasSub s n = true := by
  obtain ⟨a, b, hs⟩ := pyStrip_infix s
  obtain ⟨x, y, hx⟩ := (strHasSub_iff _ _).mp h
  refine (strHasSub_iff _ _).mpr ⟨a ++ x, y ++ b, ?_⟩
  rw [hs, hx]
  simp

theorem strHasSub_pyStrip_of {s n : Str} (hn : n ≠ [])
    (hh : isPySpace n.headI = false) (hl : isPySpace n.getLastI = false)
    (h : strHasSub s n = true) : strHasSub (pyStrip s) n = true := by
  obtain ⟨a, b, rfl⟩ := (strHasSub_iff _ _).mp h
  obtain ⟨a2, ha2⟩ := dropWhile_append_middle isPySpace a n b hn hh
  have hnrev : n.reverse ≠ [] := by simpa using hn
  have hhrev : isPySpace n.reverse.headI = false := by rw [headI_reverse]; exact hl
  obtain ⟨b2, hb2⟩ :=
    dropWhile_append_middle isPySpace b.reverse n.reverse a2.reverse hnrev hhrev
  unfold pyStrip pyStripL
  rw [ha2, show (a2 ++ n ++ b).reverse = b.reverse ++ n.reverse ++ a2.reverse by simp, hb2,
    show (b2 ++ n.reverse ++ a2.reverse).reverse = a2 ++ n ++ b2.reverse by simp]
  exact strHasSub_of_middle _ _ _

theorem strHasSub_ne_nil {s n : Str} (hn : n ≠ []) (h : strHasSub s n = true) :
    s ≠ [] := by
  obtain ⟨a, b, rfl⟩ := (strHasSub_iff _ _).mp h
  obtain ⟨c, cs, rfl⟩ := List.exists_cons_of_ne_nil hn
  simp

theorem isPySpace_pyToLower (c : Char) : isPySpace (pyToLower c) = isPySpace c := by
  unfold pyToLower
  split
  · rename_i h
    have hv : (Char.ofNat (c.toNat + 32)).toNat = c.toNat + 32 := by
      unfold Char.ofNat
      split
      · rfl
      · rename_i hval
        exfalso
        apply hval
        constructor
        omega
    have h1 : isPySpace c = false := by
      unfold isPySpace
      simp only [Bool.or_eq_false_iff, decide_eq_false_iff_not]
      omega
    have h2 : isPySpace (Char.ofNat (c.toNat + 32)) = false := by
      unfold isPySpace
      rw [hv]
      simp only [Bool.or_eq_false_iff, decide_eq_false_iff_not]
      omega
    rw [h1, h2]
  · rfl

theorem toLowerStr_pyStrip (s : Str) : toLowerStr (pyStrip s) = pyStrip (toLowerStr s) := by
  have hcomp : (isPySpace ∘ pyToLower) = isPySpace := by
    funext c
    simp [Function.comp, isPySpace_pyToLower]
  unfold toLowerStr pyStrip pyStripL
  rw [List.dropWhile_map, hcomp, ← List.map_reverse, List.dropWhile_map, hcomp,
    ← List.map_reverse]

/-! ## Validator characterization (helper) -/

/-- The exact acceptance condition of `validate_entry`: note the mountpoint
must start with `/` -- the special-mountpoint branch for `none`/`swap` is
unreachable because the absolute-path check precedes it. -/
theorem validate_entry_spec (e : FstabEntry) :
    (validate_entry e).1 = true ↔
      e.source ≠ [] ∧ e.mountpoint ≠ [] ∧ strHasPre e.mountpoint ['/'] = true ∧
      e.fstype ≠ [] ∧ e.options ≠ [] ∧ (e.dump = 0 ∨ e.dump = 1 ∨ e.dump = 2) ∧
      (e.pass_num = 0 ∨ e.pass_num = 1 ∨ e.pass_num = 2) := by
  unfold validate_entry
  split_ifs with h1 h2 h3 h4 h5 h6 h7 <;> simp_all

/-! ## Claim C1 -/

/-- C1 (claim refuted at this input; the claim matches the code's evident
intent, the code is the slip): the claim says `validate` accepts a record
whose mountpoint is the sentinel `swap` or `none` when all other rules hold,
but the absolute-path check precedes the special-mountpoint branch, so both
sentinels are rejected with the absolute-path message and the sentinel branch
is unreachable. -/
theorem C1_sentinel_mountpoints_rejected :
    validate_entry
      { source := "/dev/sda2".data, mountpoint := "swap".data,
        fstype := "swap".data, options := ["sw".data] } =
      (false, some "Mountpoint must be absolute path".data) ∧
    validate_entry
      { source := "proc".data, mountpoint := "none".data,
        fstype := "proc".data, options := ["defaults".data] } =
      (false, some "Mountpoint must be absolute path".data) := by
  exact ⟨by decide, by decide⟩

/-! ## Claim C7 -/

/-- C7: for a record with a non-empty mountpoint, remount invokes unmount
first exactly when the mount-state reader reports the mountpoint mounted;
whenever that unmount fails, remount returns a failure and never invokes
mount; otherwise it invokes mount and returns mount's result. -/
theorem C7_remount_sequencing (e : FstabEntry) (m : Bool) (ur mr : MountResult)
    (h : e.mountpoint ≠ []) :
    (remount_entry e m ur mr).unmountCalled = m ∧
    (m = true → ur.success = false →
      (remount_entry e m ur mr).result.success = false ∧
      (remount_entry e m ur mr).mountCalled = false) ∧
    (m = false ∨ ur.success = true →
      (remount_entry e m ur mr).result = mr ∧
      (remount_entry e m ur mr).mountCalled = true) := by
  unfold remount_entry
  rw [if_neg h]
  cases m with
  | false => simp
  | true => cases hu : ur.success <;> simp [hu]

/-- Witness for C7 at a concrete record, mounted state and failing unmount. -/
theorem C7_remount_sequencing_witness :
    ("/m".data : Str) ≠ [] ∧
    (remount_entry
      { source := "s".data, mountpoint := "/m".data,
        fstype := "ext4".data, options := ["defaults".data] } true
      { success := false, message := "boom".data }
      { success := true, message := "ok".data }).mountCalled = false := by
  refine ⟨by decide, ?_⟩
  exact ((C7_remount_sequencing
    { source := "s".data, mountpoint := "/m".data, fstype := "ext4".data,
      options := ["defaults".data] } true
    { success := false, message := "boom".data }
    { success := true, message := "ok".data } (by decide)).2.1 rfl rfl).2

/-! ## Claim C8 -/

/-- C8: when both required fields `host` and `mountpoint` are absent, apply
fails with one error naming both; in general the error lists every absent
required field (all collected, not just the first). -/
theorem C8_missing_fields_collected (t : NASTemplate) (d : Dict) (u : Bool)
    (h : dictHas d "host".data = false ∨ dictHas d "mountpoint".data = false) :
    apply_template t d u = .error ("Missing required fields: ".data ++
      joinSep ", ".data
        ((["host".data, "mountpoint".data]).filter (fun f => ¬ dictHas d f))) ∧
    (dictHas d "host".data = false → dictHas d "mountpoint".data = false →
      apply_template t d u = .error "Missing required fields: host, mountpoint".data) := by
  unfold apply_template
  rcases h1 : dictHas d "host".data <;> rcases h2 : dictHas d "mountpoint".data <;>
    simp_all [List.filter, joinSep]

/-- Witness for C8: the empty user input is missing both required fields. -/
theorem C8_missing_fields_collected_witness :
    (dictHas [] "host".data = false ∨ dictHas [] "mountpoint".data = false) ∧
    apply_template
      { id := "g".data, name := "G".data, protocol := "cifs".data,
        default_port := 445, default_share_path := "//{host}/{share}".data,
        default_options := ["defaults".data], auth_method := "none".data,
        description := "d".data, help_url := "u".data } [] false =
      .error "Missing required fields: host, mountpoint".data := by
  refine ⟨Or.inl (by decide), ?_⟩
  exact (C8_missing_fields_collected _ [] false (Or.inl (by decide))).2 (by decide) (by decide)

/-! ## Claim C10 -/

/-- C10: whenever add fails (validation, duplicate mountpoint, or absent
table file) the table file's content is unchanged -- the append happens only
on success; but when the failure is the duplicate-mountpoint rejection and a
backup was requested, a backup file has already been created, because the
backup step precedes the duplicate check. -/
theorem C10_add_failure_preserves_table (e : FstabEntry) (st : SysState)
    (fp bd : Str) (now : DateTime) (cb : Bool) (m : Str)
    (h : (add_entry e st fp bd now cb).1 = some m) :
    (add_entry e st fp bd now cb).2.fstabContent = st.fstabContent ∧
    (m = "Mountpoint ".data ++ e.mountpoint ++ " already exists in fstab".data →
      cb = true →
      (add_entry e st fp bd now cb).2.backupFiles.length =
        st.backupFiles.length + 1) := by
  obtain ⟨fc, bde, bf⟩ := st
  unfold add_entry backup_fstab at h ⊢
  by_cases hv : (validate_entry e).1 = false
  · rw [if_pos hv] at h ⊢
    refine ⟨rfl, fun hm _ => ?_⟩
    simp only [Option.some.injEq] at h
    rw [← h] at hm
    have hhead := congrArg List.headI hm
    simp [List.headI] at hhead
  · rw [if_neg hv] at h ⊢
    cases cb <;> cases fc <;> dsimp only at h ⊢
    · exact ⟨rfl, fun _ hcb => by cases hcb⟩
    · rename_i content
      by_cases hd : ((parse_fstab content).any
          (fun ex => ex.mountpoint = e.mountpoint)) = true
      · rw [if_pos hd] at h ⊢
        exact ⟨rfl, fun _ hcb => by cases hcb⟩
      · rw [if_neg hd] at h
        cases h
    · refine ⟨rfl, fun hm _ => ?_⟩
      simp only [Option.some.injEq] at h
      rw [← h] at hm
      have hhead := congrArg List.headI hm
      simp [List.headI] at hhead
    · rename_i content
      by_cases hd : ((parse_fstab content).any
          (fun ex => ex.mountpoint = e.mountpoint)) = true
      · rw [if_pos hd] at h ⊢
        exact ⟨rfl, fun _ _ => by simp⟩
      · rw [if_neg hd] at h
        cases h

/-- Witness for C10: a valid duplicate add with backup requested leaves the
table unchanged and has created one backup file. -/
theorem C10_add_failure_preserves_table_witness :
    (add_entry
      { source := "UUID=b".data, mountpoint := "/mnt/x".data,
        fstype := "ext4".data, options := ["defaults".data] }
      ⟨some "UUID=a\t/mnt/x\text4\tdefaults\t0\t0\n".data, false, []⟩
      "/etc/fstab".data "/var/backups".data ⟨2026, 1, 2, 3, 4, 5⟩ true).1 =
      some ("Mountpoint ".data ++ "/mnt/x".data ++ " already exists in fstab".data) ∧
    (add_entry
      { source := "UUID=b".data, mountpoint := "/mnt/x".data,
        fstype := "ext4".data, options := ["defaults".data] }
      ⟨some "UUID=a\t/mnt/x\text4\tdefaults\t0\t0\n".data, false, []⟩
      "/etc/fstab".data "/var/backups".data ⟨2026, 1, 2, 3, 4, 5⟩ true).2.fstabContent =
      some "UUID=a\t/mnt/x\text4\tdefaults\t0\t0\n".data ∧
    (add_entry
      { source := "UUID=b".data, mountpoint := "/mnt/x".data,
        fstype := "ext4".data, options := ["defaults".data] }
      ⟨some "UUID=a\t/mnt/x\text4\tdefaults\t0\t0\n".data, false, []⟩
      "/etc/fstab".data "/var/backups".data ⟨2026, 1, 2, 3, 4, 5⟩ true).2.backupFiles.length =
      0 + 1 := by
  have hmain := C10_add_failure_preserves_table
    { source := "UUID=b".data, mountpoint := "/mnt/x".data,
      fstype := "ext4".data, options := ["defaults".data] }
    ⟨some "UUID=a\t/mnt/x\text4\tdefaults\t0\t0\n".data, false, []⟩
    "/etc/fstab".data "/var/backups".data ⟨2026, 1, 2, 3, 4, 5⟩ true
    ("Mountpoint ".data ++ "/mnt/x".data ++ " already exists in fstab".data)
    (by decide)
  exact ⟨by decide, hmain.1, hmain.2 rfl rfl⟩

/-! ## Claim C5 -/

/-- C5 counterexample: the claim names the backup file
`<basename-of-path>.backup.<timestamp>`, but the code hard-codes the `fstab`
stem: for source path `/tmp/custom_fstab` the created name and returned path
use `fstab.backup.<ts>`, not `custom_fstab.backup.<ts>`. -/
theorem C5_backup_name_counterexample :
    (backup_fstab ⟨some "X".data, false, []⟩ "/tmp/custom_fstab".data
        "/var/backups".data ⟨2026, 1, 2, 3, 4, 5⟩).2.1 =
      "/var/backups/fstab.backup.20260102_030405".data ∧
    pyBasename "/tmp/custom_fstab".data = "custom_fstab".data ∧
    "/var/backups/fstab.backup.20260102_030405".data ≠
      "/var/backups".data ++ '/' ::
        (pyBasename "/tmp/custom_fstab".data ++ ".backup.".data ++
          strftimeTs ⟨2026, 1, 2, 3, 4, 5⟩) := by
  exact ⟨by decide, by decide, by decide⟩

/-- C5 (amended): backup fails with the not-found error when the source file
is absent; otherwise it ensures the backup directory exists, records a
byte-identical copy under the fixed name `fstab.backup.<YYYYMMDD_HHMMSS>`
(second-granularity timestamp; the stem is `fstab` regardless of the source
path's basename), and returns `backup_dir/<that name>`. -/
theorem C5_backup_behaviour (st : SysState) (fp bd : Str) (now : DateTime) :
    (st.fstabContent = none →
      (backup_fstab st fp bd now).1 = some ("fstab not found: ".data ++ fp)) ∧
    (∀ content, st.fstabContent = some content →
      (backup_fstab st fp bd now).1 = none ∧
      (backup_fstab st fp bd now).2.2.backupDirExists = true ∧
      (backup_fstab st fp bd now).2.2.backupFiles =
        st.backupFiles ++ [("fstab.backup.".data ++ strftimeTs now, content)] ∧
      (backup_fstab st fp bd now).2.1 =
        bd ++ '/' :: ("fstab.backup.".data ++ strftimeTs now)) := by
  unfold backup_fstab
  cases hc : st.fstabContent with
  | none => simp
  | some content => simp

/-- Witness for C5 at a concrete state and timestamp. -/
theorem C5_backup_behaviour_witness :
    ((⟨some "AB".data, false, []⟩ : SysState).fstabContent = some "AB".data) ∧
    (backup_fstab ⟨some "AB".data, false, []⟩ "/etc/fstab".data
        "/var/backups".data ⟨2026, 10, 12, 1, 2, 3⟩).2.1 =
      "/var/backups/fstab.backup.20261012_010203".data := by
  have h := (C5_backup_behaviour ⟨some "AB".data, false, []⟩ "/etc/fstab".data
    "/var/backups".data ⟨2026, 10, 12, 1, 2, 3⟩).2 "AB".data rfl
  exact ⟨rfl, h.2.2.2.trans (by decide)⟩

/-! ## Claim C3 -/

/-- C3 counterexample: a record whose mountpoint duplicates a parsed entry's
mountpoint but which fails validation (empty source) is rejected with the
validation error, not the duplicate-mountpoint error -- validation runs
first. -/
theorem C3_invalid_duplicate_counterexample :
    (parse_fstab "UUID=a\t/mnt/x\text4\tdefaults\t0\t0\n".data).any
      (fun ex => ex.mountpoint = "/mnt/x".data) = true ∧
    (add_entry
      { source := [], mountpoint := "/mnt/x".data, fstype := "ext4".data,
        options := ["defaults".data] }
      ⟨some "UUID=a\t/mnt/x\text4\tdefaults\t0\t0\n".data, false, []⟩
      "/etc/fstab".data "/var/backups".data ⟨2026, 1, 2, 3, 4, 5⟩ true).1 =
      some "Invalid fstab entry: Source cannot be empty".data ∧
    "Invalid fstab entry: Source cannot be empty".data ≠
      "Mountpoint ".data ++ "/mnt/x".data ++ " already exists in fstab".data := by
  exact ⟨by decide, by decide, by decide⟩

/-- C3 (amended): for every record that passes validation and whose
mountpoint equals the mountpoint of some record parsed from the table file,
add fails with the duplicate-mountpoint error, regardless of the record's
other fields. -/
theorem C3_duplicate_mountpoint_rejected (e : FstabEntry) (content : Str)
    (st : SysState) (fp bd : Str) (now : DateTime) (cb : Bool)
    (hv : (validate_entry e).1 = true)
    (hc : st.fstabContent = some content)
    (hdup : (parse_fstab content).any (fun ex => ex.mountpoint = e.mountpoint) = true) :
    (add_entry e st fp bd now cb).1 =
      some ("Mountpoint ".data ++ e.mountpoint ++ " already exists in fstab".data) := by
  obtain ⟨fc, bde, bf⟩ := st
  simp only [SysState.mk.injEq] at hc
  subst hc
  unfold add_entry backup_fstab
  rw [if_neg (by simp [hv])]
  cases cb <;> dsimp only <;> rw [if_pos hdup]

/-- Witness for C3: a fully valid record against a table already holding its
mountpoint, with every other field different from the existing entry's. -/
theorem C3_duplicate_mountpoint_rejected_witness :
    (validate_entry
      { source := "//nas/share".data, mountpoint := "/mnt/x".data,
        fstype := "cifs".data, options := ["rw".data], dump := 1, pass_num := 2,
        comment := some "other".data }).1 = true ∧
    (add_entry
      { source := "//nas/share".data, mountpoint := "/mnt/x".data,
        fstype := "cifs".data, options := ["rw".data], dump := 1, pass_num := 2,
        comment := some "other".data }
      ⟨some "UUID=a\t/mnt/x\text4\tdefaults\t0\t0\n".data, false, []⟩
      "/etc/fstab".data "/var/backups".data ⟨2026, 1, 2, 3, 4, 5⟩ false).1 =
      some ("Mountpoint ".data ++ "/mnt/x".data ++ " already exists in fstab".data) := by
  refine ⟨by decide, ?_⟩
  exact C3_duplicate_mountpoint_rejected
    { source := "//nas/share".data, mountpoint := "/mnt/x".data,
      fstype := "cifs".data, options := ["rw".data], dump := 1, pass_num := 2,
      comment := some "other".data }
    "UUID=a\t/mnt/x\text4\tdefaults\t0\t0\n".data
    ⟨some "UUID=a\t/mnt/x\text4\tdefaults\t0\t0\n".data, false, []⟩
    "/etc/fstab".data "/var/backups".data ⟨2026, 1, 2, 3, 4, 5⟩ false
    (by decide) rfl (by decide)

/-! ## Claim C4 -/

/-- C4 counterexample: the claim requires `success=false` whenever the tool
exits nonzero with stderr containing `busy`, but the `not mounted` test runs
first: stderr containing both yields `success=true`. -/
theorem C4_busy_counterexample :
    strHasSub (toLowerStr "filesystem not mounted, target is busy".data)
      "busy".data = true ∧
    (16 : Int) ≠ 0 ∧
    (unmount_entry "/mnt/x".data true
      ⟨16, [], "filesystem not mounted, target is busy".data⟩).success = true := by
  exact ⟨by decide, by decide, by decide⟩

/-- C4 (amended): for an existing, non-empty mountpoint and a nonzero tool
exit: stderr containing `not mounted` (any case) is an idempotent success;
stderr containing `busy` (any case) and not containing `not mounted` is the
device-busy failure carrying the tool's exit code and the suggestion to
force-unmount or close applications using the mount. -/
theorem C4_unmount_classification (mp : Str) (tool : ToolResult)
    (h1 : mp ≠ []) (h2 : ¬ tool.returncode = 0) :
    (strHasSub (toLowerStr tool.stderr) "not mounted".data = true →
      (unmount_entry mp true tool).success = true ∧
      (unmount_entry mp true tool).message = mp ++ " is not mounted".data) ∧
    (strHasSub (toLowerStr tool.stderr) "busy".data = true →
      strHasSub (toLowerStr tool.stderr) "not mounted".data = false →
      (unmount_entry mp true tool).success = false ∧
      (unmount_entry mp true tool).error_code = some tool.returncode ∧
      (unmount_entry mp true tool).message =
        "Unmount failed: Device is busy. Try force unmount or close applications using this mount.".data) := by
  unfold unmount_entry
  rw [if_neg h1, if_neg (by simp), if_neg h2]
  dsimp only
  constructor
  · intro hnm
    have hne : pyStrip tool.stderr ≠ [] := by
      intro h0
      have hx := strHasSub_pyStrip_of (s := toLowerStr tool.stderr)
        (n := "not mounted".data) (by decide) (by decide) (by decide) hnm
      rw [← toLowerStr_pyStrip, h0] at hx
      exact absurd hx (by decide)
    have hsubnm : strHasSub (toLowerStr (pyStrip tool.stderr))
        "not mounted".data = true := by
      rw [toLowerStr_pyStrip]
      exact strHasSub_pyStrip_of (by decide) (by decide) (by decide) hnm
    rw [if_pos hne, if_pos hsubnm]
    exact ⟨rfl, rfl⟩
  · intro hb hnm
    have hne : pyStrip tool.stderr ≠ [] := by
      intro h0
      have hx := strHasSub_pyStrip_of (s := toLowerStr tool.stderr)
        (n := "busy".data) (by decide) (by decide) (by decide) hb
      rw [← toLowerStr_pyStrip, h0] at hx
      exact absurd hx (by decide)
    have hsubb : strHasSub (toLowerStr (pyStrip tool.stderr)) "busy".data = true := by
      rw [toLowerStr_pyStrip]
      exact strHasSub_pyStrip_of (by decide) (by decide) (by decide) hb
    have hsubnm : strHasSub (toLowerStr (pyStrip tool.stderr))
        "not mounted".data = false := by
      rw [toLowerStr_pyStrip]
      cases hx : strHasSub (pyStrip (toLowerStr tool.stderr)) "not mounted".data
      · rfl
      · exact absurd (strHasSub_pyStrip_mono hx) (by simp [hnm])
    rw [if_pos hne, if_neg (by simp [hsubnm]), if_pos (by simp [hsubb])]
    exact ⟨rfl, rfl, rfl⟩

/-- Witness for C4: `exit 32` + stderr `" umount: Not Mounted "` is an
idempotent success. -/
theorem C4_unmount_classification_witness :
    ("/mnt/x".data : Str) ≠ [] ∧ ¬ (32 : Int) = 0 ∧
    (unmount_entry "/mnt/x".data true
      ⟨32, [], " umount: Not Mounted ".data⟩).success = true := by
  refine ⟨by decide, by decide, ?_⟩
  exact ((C4_unmount_classification "/mnt/x".data
    ⟨32, [], " umount: Not Mounted ".data⟩ (by decide) (by decide)).1 (by decide)).1

/-! ## Template application characterization (helper) -/

/-- What a successful `apply_template` produces: the mountpoint, fstype,
options pipeline and the per-protocol source construction. -/
theorem apply_template_ok_spec {t : NASTemplate} {d : Dict} {u : Bool}
    {e : FstabEntry} (h : apply_template t d u = .ok e) :
    e.mountpoint = (dictGet d "mountpoint".data).getD [] ∧
    e.fstype = selectedProtocol t u ∧
    e.options = gidStep d (uidStep d (optionsWithCreds t d u)) ∧
    e.comment = some (t.name ++ ' ' :: '-' :: ' ' :: t.description) ∧
    ((selectedProtocol t u = "cifs".data ∨ selectedProtocol t u = "smb".data) →
      e.source = '/' :: '/' :: ((dictGet d "host".data).getD []) ++
        '/' :: ((dictGet d "share".data).getD [])) ∧
    ((selectedProtocol t u = "nfs".data ∨ selectedProtocol t u = "nfs4".data) →
      e.source = ((dictGet d "host".data).getD []) ++ ':' ::
        ((dictGet d "share".data).getD ((dictGet d "export".data).getD []))) ∧
    (¬ (selectedProtocol t u = "cifs".data ∨ selectedProtocol t u = "smb".data) →
     ¬ (selectedProtocol t u = "nfs".data ∨ selectedProtocol t u = "nfs4".data) →
      pyFormat d t.default_share_path = some e.source) := by
  unfold apply_template at h
  dsimp only at h
  by_cases hm : ((["host".data, "mountpoint".data]).filter
      (fun f => ¬ dictHas d f)) ≠ []
  · rw [if_pos hm] at h
    cases h
  · rw [if_neg hm] at h
    by_cases hn : u = true ∧ t.nfs_support = false
    · rw [if_pos hn] at h
      cases h
    · rw [if_neg hn] at h
      by_cases hcs : selectedProtocol t u = "cifs".data ∨
          selectedProtocol t u = "smb".data
      · rw [if_pos hcs] at h
        dsimp only at h
        injection h with h
        subst h
        refine ⟨rfl, rfl, rfl, rfl, fun _ => rfl, fun hq => ?_, fun hq _ => absurd hcs hq⟩
        rcases hcs with hc | hc <;> rcases hq with hq | hq <;>
          rw [hc] at hq <;> exact absurd hq (by decide)
      · rw [if_neg hcs] at h
        by_cases hnf : selectedProtocol t u = "nfs".data ∨
            selectedProtocol t u = "nfs4".data
        · rw [if_pos hnf] at h
          dsimp only at h
          injection h with h
          subst h
          exact ⟨rfl, rfl, rfl, rfl, fun hq => absurd hq hcs, fun _ => rfl,
            fun _ hq => absurd hnf hq⟩
        · rw [if_neg hnf] at h
          cases hf : pyFormat d t.default_share_path with
          | none => rw [hf] at h; cases h
          | some src =>
            rw [hf] at h
            dsimp only at h
            injection h with h
            subst h
            exact ⟨rfl, rfl, rfl, rfl, fun hq => absurd hq hcs,
              fun hq => absurd hq hnf, fun _ _ => hf ▸ rfl⟩

/-! ## Claim C6 -/

/-- C6 counterexample: for nfs the claim says the source uses the `export`
value, falling back to `share` only when `export` is absent; the code prefers
`share` and falls back to `export`: with both present the source uses
`share`. -/
theorem C6_nfs_source_counterexample :
    (apply_template
      { id := "g".data, name := "G".data, protocol := "nfs".data,
        default_port := 2049, default_share_path := "{host}:{share}".data,
        default_options := ["defaults".data], auth_method := "none".data,
        description := "d".data, help_url := "u".data }
      [("host".data, "h".data), ("share".data, "s".data),
        ("export".data, "e".data), ("mountpoint".data, "/m".data)] false).map
      (fun e => e.source) = .ok "h:s".data ∧
    ("h:s".data : Str) ≠ "h".data ++ ':' :: "e".data := by
  exact ⟨rfl, by decide⟩

/-- C6 (amended): for accepted input, the source is: cifs/smb ->
`//{host}/{share}` (share empty string if absent); nfs/nfs4 -> `{host}:`
followed by the user input's `share` value, falling back to `export` only
when `share` is absent; any other protocol -> the template's
`default_share_path` pattern formatted with the user input. -/
theorem C6_source_construction (t : NASTemplate) (d : Dict) (u : Bool)
    (e : FstabEntry) (h : apply_template t d u = .ok e) :
    ((selectedProtocol t u = "cifs".data ∨ selectedProtocol t u = "smb".data) →
      e.source = '/' :: '/' :: ((dictGet d "host".data).getD []) ++
        '/' :: ((dictGet d "share".data).getD [])) ∧
    ((selectedProtocol t u = "nfs".data ∨ selectedProtocol t u = "nfs4".data) →
      e.source = ((dictGet d "host".data).getD []) ++ ':' ::
        ((dictGet d "share".data).getD ((dictGet d "export".data).getD []))) ∧
    (¬ (selectedProtocol t u = "cifs".data ∨ selectedProtocol t u = "smb".data) →
     ¬ (selectedProtocol t u = "nfs".data ∨ selectedProtocol t u = "nfs4".data) →
      pyFormat d t.default_share_path = some e.source) := by
  obtain ⟨-, -, -, -, hc, hn, ho⟩ := apply_template_ok_spec h
  exact ⟨hc, hn, ho⟩

/-- Witness for C6: the FritzNAS-style cifs template yields source
`//fritz.box/USB-Storage`. -/
theorem C6_source_construction_witness :
    apply_template
      { id := "fritznas".data, name := "FritzNAS".data, protocol := "cifs".data,
        default_port := 445, default_share_path := "//{host}/{share}".data,
        default_options := ["vers=3.0".data, "nofail".data],
        auth_method := "none".data, description := "AVM".data,
        help_url := "u".data }
      [("host".data, "fritz.box".data), ("share".data, "USB-Storage".data),
        ("mountpoint".data, "/mnt/nas".data)] false =
      .ok { source := "//fritz.box/USB-Storage".data,
            mountpoint := "/mnt/nas".data, fstype := "cifs".data,
            options := ["vers=3.0".data, "nofail".data], dump := 0, pass_num := 0,
            comment := some "FritzNAS - AVM".data } ∧
    (FstabEntry.source
      { source := "//fritz.box/USB-Storage".data,
        mountpoint := "/mnt/nas".data, fstype := "cifs".data,
        options := ["vers=3.0".data, "nofail".data], dump := 0, pass_num := 0,
        comment := some "FritzNAS - AVM".data }) =
      '/' :: '/' :: ((dictGet
          [("host".data, "fritz.box".data), ("share".data, "USB-Storage".data),
            ("mountpoint".data, "/mnt/nas".data)] "host".data).getD []) ++
        '/' :: ((dictGet
          [("host".data, "fritz.box".data), ("share".data, "USB-Storage".data),
            ("mountpoint".data, "/mnt/nas".data)] "share".data).getD []) := by
  refine ⟨rfl, ?_⟩
  exact (C6_source_construction
    { id := "fritznas".data, name := "FritzNAS".data, protocol := "cifs".data,
      default_port := 445, default_share_path := "//{host}/{share}".data,
      default_options := ["vers=3.0".data, "nofail".data],
      auth_method := "none".data, description := "AVM".data,
      help_url := "u".data }
    [("host".data, "fritz.box".data), ("share".data, "USB-Storage".data),
      ("mountpoint".data, "/mnt/nas".data)] false
    { source := "//fritz.box/USB-Storage".data,
      mountpoint := "/mnt/nas".data, fstype := "cifs".data,
      options := ["vers=3.0".data, "nofail".data], dump := 0, pass_num := 0,
      comment := some "FritzNAS - AVM".data } rfl).1 (Or.inl (by decide))

/-! ## Claim C9 -/

/-- C9: in a successful apply, `uid=<uid>` (resp. `gid=<gid>`) is appended
exactly when the user input has the key and the literal string is not a
substring of the comma-joined current options -- a joined-string substring
test, not per-option equality: a request to add `uid=100` is skipped when
`uid=1000` is among the options. -/
theorem C9_uid_gid_injection (t : NASTemplate) (d : Dict) (u : Bool)
    (e : FstabEntry) (h : apply_template t d u = .ok e) :
    e.options =
      (let base := optionsWithCreds t d u
       let afterUid :=
         if dictHas d "uid".data ∧
             strHasSub (joinSep [','] base) (uidStr d) = false
         then base ++ [uidStr d] else base
       if dictHas d "gid".data ∧
           strHasSub (joinSep [','] afterUid) (gidStr d) = false
       then afterUid ++ [gidStr d] else afterUid) ∧
    uidStep [("uid".data, "100".data)] ["uid=1000".data] = ["uid=1000".data] := by
  refine ⟨?_, by decide⟩
  have ho := (apply_template_ok_spec h).2.2.1
  rw [ho]
  rfl

/-- Witness for C9: a template application with `uid` in the input appends
`uid=1000` to the options. -/
theorem C9_uid_gid_injection_witness :
    apply_template
      { id := "g".data, name := "G".data, protocol := "cifs".data,
        default_port := 445, default_share_path := "//{host}/{share}".data,
        default_options := ["vers=3.0".data], auth_method := "none".data,
        description := "d".data, help_url := "u".data }
      [("host".data, "h".data), ("mountpoint".data, "/m".data),
        ("uid".data, "1000".data)] false =
      .ok { source := "//h/".data, mountpoint := "/m".data, fstype := "cifs".data,
            options := ["vers=3.0".data, "uid=1000".data], dump := 0, pass_num := 0,
            comment := some "G - d".data } ∧
    ["vers=3.0".data, "uid=1000".data] =
      (let base := optionsWithCreds
        { id := "g".data, name := "G".data, protocol := "cifs".data,
          default_port := 445, default_share_path := "//{host}/{share}".data,
          default_options := ["vers=3.0".data], auth_method := "none".data,
          description := "d".data, help_url := "u".data }
        [("host".data, "h".data), ("mountpoint".data, "/m".data),
          ("uid".data, "1000".data)] false
       let afterUid :=
         if dictHas [("host".data, "h".data), ("mountpoint".data, "/m".data),
             ("uid".data, "1000".data)] "uid".data ∧
             strHasSub (joinSep [','] base)
               (uidStr [("host".data, "h".data), ("mountpoint".data, "/m".data),
                 ("uid".data, "1000".data)]) = false
         then base ++ [uidStr [("host".data, "h".data), ("mountpoint".data, "/m".data),
           ("uid".data, "1000".data)]] else base
       if dictHas [("host".data, "h".data), ("mountpoint".data, "/m".data),
           ("uid".data, "1000".data)] "gid".data ∧
           strHasSub (joinSep [','] afterUid)
             (gidStr [("host".data, "h".data), ("mountpoint".data, "/m".data),
               ("uid".data, "1000".data)]) = false
       then afterUid ++ [gidStr [("host".data, "h".data), ("mountpoint".data, "/m".data),
         ("uid".data, "1000".data)]] else afterUid) := by
  refine ⟨rfl, ?_⟩
  have hx := (C9_uid_gid_injection
    { id := "g".data, name := "G".data, protocol := "cifs".data,
      default_port := 445, default_share_path := "//{host}/{share}".data,
      default_options := ["vers=3.0".data], auth_method := "none".data,
      description := "d".data, help_url := "u".data }
    [("host".data, "h".data), ("mountpoint".data, "/m".data),
      ("uid".data, "1000".data)] false
    { source := "//h/".data, mountpoint := "/m".data, fstype := "cifs".data,
      options := ["vers=3.0".data, "uid=1000".data], dump := 0, pass_num := 0,
      comment := some "G - d".data } rfl).1
  exact hx

/-! ## Round-trip machinery (claim C2) -/

theorem joinSep_cons_cons (sep x y : Str) (ys : List Str) :
    joinSep sep (x :: y :: ys) = x ++ sep ++ joinSep sep (y :: ys) := rfl

theorem joinSep_ne_nil {sep : Str} {xs : List Str} (h1 : xs ≠ [])
    (h2 : ∀ o ∈ xs, o ≠ []) : joinSep sep xs ≠ [] := by
  cases xs with
  | nil => exact absurd rfl h1
  | cons x xs' =>
    cases xs' with
    | nil => exact h2 x (by simp)
    | cons y ys =>
      rw [joinSep_cons_cons]
      intro hx
      rcases List.append_eq_nil.mp hx with ⟨hx1, -⟩
      rcases List.append_eq_nil.mp hx1 with ⟨hx2, -⟩
      exact h2 x (by simp) hx2

theorem mem_joinSep {c : Char} {sep : Str} {opts : List Str}
    (h : c ∈ joinSep sep opts) : c ∈ sep ∨ ∃ o ∈ opts, c ∈ o := by
  induction opts with
  | nil => cases h
  | cons x xs ih =>
    cases xs with
    | nil => exact Or.inr ⟨x, by simp, h⟩
    | cons y ys =>
      rw [joinSep_cons_cons] at h
      rcases List.mem_append.mp h with h1 | h2
      · rcases List.mem_append.mp h1 with ha | hb
        · exact Or.inr ⟨x, by simp, ha⟩
        · exact Or.inl hb
      · rcases ih h2 with hs | ⟨o, ho, hc⟩
        · exact Or.inl hs
        · exact Or.inr ⟨o, by simp [ho], hc⟩

theorem splitOnP_joinSep (p : Char → Bool) (sep : Char) (hs : p sep = true)
    (opts : List Str) (h1 : opts ≠ [])
    (h2 : ∀ o ∈ opts, ∀ c ∈ o, p c = false) :
    splitOnP p (joinSep [sep] opts) = opts := by
  induction opts with
  | nil => exact absurd rfl h1
  | cons x xs ih =>
    cases xs with
    | nil => exact splitOnP_all_neg p x (fun c hc => h2 x (by simp) c hc)
    | cons y ys =>
      rw [joinSep_cons_cons,
        show x ++ [sep] ++ joinSep [sep] (y :: ys) =
          x ++ sep :: joinSep [sep] (y :: ys) by simp,
        splitOnP_append p x _ sep (fun c hc => h2 x (by simp) c hc) hs,
        ih (by simp) (fun o ho c hc => h2 o (by simp [ho]) c hc)]

theorem not_nl_of_not_ws {c : Char} (h : isPySpace c = false) : ¬ c = '\n' := by
  intro hc
  rw [hc] at h
  exact absurd h (by decide)

theorem goodField_spec {s : Str} (h : goodField s = true) :
    s ≠ [] ∧ ∀ c ∈ s, isPySpace c = false := by
  unfold goodField at h
  simp only [Bool.and_eq_true, List.all_eq_true, ne_eq, decide_eq_true_eq,
    Bool.not_eq_true'] at h
  exact ⟨by simpa using h.1, fun c hc => ((h.2 c hc).1)⟩

theorem goodOption_spec {s : Str} (h : goodOption s = true) :
    s ≠ [] ∧ (∀ c ∈ s, isPySpace c = false) ∧ ∀ c ∈ s, ¬ c = ',' := by
  unfold goodOption at h
  simp only [Bool.and_eq_true, List.all_eq_true, decide_eq_true_eq] at h
  obtain ⟨hg, hcomma⟩ := h
  obtain ⟨h1, h2⟩ := goodField_spec hg
  exact ⟨h1, h2, fun c hc => by simpa using hcomma c hc⟩

theorem goodComment_spec {c : Str} (h : goodComment (some c) = true) :
    c ≠ [] ∧ isPySpace c.headI = false ∧ isPySpace c.getLastI = false ∧
      ∀ x ∈ c, ¬ x = '\n' := by
  unfold goodComment at h
  simp only [Bool.and_eq_true, List.all_eq_true, ne_eq, decide_eq_true_eq,
    Bool.not_eq_true'] at h
  exact ⟨by simpa using h.1.1.1, h.1.1.2, h.1.2, fun x hx => (h.2 x hx).1.1⟩

theorem wellFormed_spec {e : FstabEntry} (h : wellFormed e = true) :
    goodField e.source = true ∧ ¬ e.source.headI = '#' ∧
      goodField e.mountpoint = true ∧ goodField e.fstype = true ∧
      e.options ≠ [] ∧ (∀ o ∈ e.options, goodOption o = true) ∧
      goodComment e.comment = true := by
  unfold wellFormed at h
  simp only [Bool.and_eq_true, List.all_eq_true, ne_eq, decide_eq_true_eq] at h
  exact ⟨h.1.1.1.1.1.1, h.1.1.1.1.1.2, h.1.1.1.1.2, h.1.1.1.2,
    by simpa using h.1.1.2, h.1.2, h.2⟩

theorem intRepr_small {i : Int} (h : i = 0 ∨ i = 1 ∨ i = 2) :
    intRepr i ≠ [] ∧ (∀ c ∈ intRepr i, isPySpace c = false) ∧
      pyIsDigit (intRepr i) = true ∧ (strToNat (intRepr i) : Int) = i ∧
      isPySpace (intRepr i).getLastI = false := by
  rcases h with rfl | rfl | rfl <;>
    exact ⟨by decide, by decide, by decide, by decide, by decide⟩

theorem render_decomp (e : FstabEntry) (hopts : e.options ≠ []) :
    e.render = e.source ++ '\t' :: (e.mountpoint ++ '\t' :: (e.fstype ++
      '\t' :: (joinSep [','] e.options ++ '\t' :: (intRepr e.dump ++
        '\t' :: intRepr e.pass_num)))) := by
  unfold FstabEntry.render
  dsimp only
  rw [if_pos hopts]
  simp

theorem render_ne_nil {e : FstabEntry} (hs : e.source ≠ []) : e.render ≠ [] := by
  unfold FstabEntry.render
  dsimp only
  obtain ⟨c, cs, hc⟩ := List.exists_cons_of_ne_nil hs
  rw [hc]
  simp

theorem render_headI {e : FstabEntry} (hs : e.source ≠ []) :
    e.render.headI = e.source.headI := by
  unfold FstabEntry.render
  dsimp only
  obtain ⟨c, cs, hc⟩ := List.exists_cons_of_ne_nil hs
  rw [hc]
  rfl

theorem render_getLastI (e : FstabEntry) (hopts : e.options ≠ [])
    (hp : intRepr e.pass_num ≠ []) :
    e.render.getLastI = (intRepr e.pass_num).getLastI := by
  rw [render_decomp e hopts,
    show e.source ++ '\t' :: (e.mountpoint ++ '\t' :: (e.fstype ++
        '\t' :: (joinSep [','] e.options ++ '\t' :: (intRepr e.dump ++
          '\t' :: intRepr e.pass_num)))) =
      (e.source ++ '\t' :: (e.mountpoint ++ '\t' :: (e.fstype ++
        '\t' :: (joinSep [','] e.options ++ '\t' :: (intRepr e.dump ++
          ['\t']))))) ++ intRepr e.pass_num by simp,
    getLastI_append hp]

theorem render_not_comment {e : FstabEntry} (hs : e.source ≠ [])
    (hh : ¬ e.source.headI = '#') : strHasPre e.render ['#'] = false := by
  unfold FstabEntry.render
  dsimp only
  obtain ⟨c, cs, hc⟩ := List.exists_cons_of_ne_nil hs
  rw [hc] at hh ⊢
  simp only [List.cons_append, strHasPre, Bool.and_eq_true]
  simp only [List.headI] at hh
  simp [hh]

/-- The joined options string is non-empty and whitespace-free for a
well-formed record. -/
theorem joinSep_options_facts {e : FstabEntry} (hopts : e.options ≠ [])
    (hgo : ∀ o ∈ e.options, goodOption o = true) :
    joinSep [','] e.options ≠ [] ∧
      ∀ c ∈ joinSep [','] e.options, isPySpace c = false := by
  refine ⟨joinSep_ne_nil hopts (fun o ho => (goodOption_spec (hgo o ho)).1), ?_⟩
  intro c hc
  rcases mem_joinSep hc with hsep | ⟨o, ho, hco⟩
  · simp only [List.mem_singleton] at hsep
    rw [hsep]
    decide
  · exact (goodOption_spec (hgo o ho)).2.1 c hco

/-- The rendered line of a well-formed, valid record is its own strip. -/
theorem render_strip (e : FstabEntry)
    (hwf : wellFormed e = true) (hv : (validate_entry e).1 = true) :
    pyStrip e.render = e.render := by
  obtain ⟨hsrc, -, -, -, hopts, -, hpass⟩ := (validate_entry_spec e).mp hv
  obtain ⟨hgs, -, -, -, -, -, -⟩ := wellFormed_spec hwf
  obtain ⟨-, hsws⟩ := goodField_spec hgs
  obtain ⟨hpne, -, -, -, hplast⟩ := intRepr_small hpass
  refine pyStrip_eq_self (render_ne_nil hsrc) ?_ ?_
  · rw [render_headI hsrc]
    obtain ⟨c, cs, hc⟩ := List.exists_cons_of_ne_nil hsrc
    rw [hc]
    exact hsws c (by rw [hc]; simp)
  · rw [render_getLastI e hopts hpne]
    exact hplast

theorem parse_line_render (e : FstabEntry) (cur : Option Str)
    (hwf : wellFormed e = true) (hv : (validate_entry e).1 = true) :
    parse_fstab_line e.render cur = some { e with comment := cur } := by
  obtain ⟨hsrc, hmp, -, hfs, hopts, hdump, hpass⟩ := (validate_entry_spec e).mp hv
  obtain ⟨hgs, -, hgm, hgf, -, hgo, -⟩ := wellFormed_spec hwf
  obtain ⟨-, hsws⟩ := goodField_spec hgs
  obtain ⟨-, hmws⟩ := goodField_spec hgm
  obtain ⟨-, hfws⟩ := goodField_spec hgf
  obtain ⟨hdne, hdws, hddig, hdval, -⟩ := intRepr_small hdump
  obtain ⟨hpne, hpws, hpdig, hpval, hplast⟩ := intRepr_small hpass
  obtain ⟨hJne, hJws⟩ := joinSep_options_facts hopts hgo
  have htab : isPySpace '\t' = true := by decide
  have hstrip : pyStrip e.render = e.render := render_strip e hwf hv
  have hsplit : splitOnP isPySpace e.render =
      [e.source, e.mountpoint, e.fstype, joinSep [','] e.options,
        intRepr e.dump, intRepr e.pass_num] := by
    rw [render_decomp e hopts,
      splitOnP_append isPySpace e.source _ '\t' hsws htab,
      splitOnP_append isPySpace e.mountpoint _ '\t' hmws htab,
      splitOnP_append isPySpace e.fstype _ '\t' hfws htab,
      splitOnP_append isPySpace (joinSep [','] e.options) _ '\t' hJws htab,
      splitOnP_append isPySpace (intRepr e.dump) _ '\t' hdws htab,
      splitOnP_all_neg isPySpace (intRepr e.pass_num) hpws]
  have hparts : pySplitWs e.render =
      [e.source, e.mountpoint, e.fstype, joinSep [','] e.options,
        intRepr e.dump, intRepr e.pass_num] := by
    unfold pySplitWs
    rw [hstrip, hsplit]
    rw [List.filter_eq_self.mpr ?_]
    intro a ha
    simp only [List.mem_cons, List.mem_singleton] at ha
    rcases ha with rfl | rfl | rfl | rfl | rfl | rfl | hfalse
    · simpa using hsrc
    · simpa using hmp
    · simpa using hfs
    · simpa using hJne
    · simpa using hdne
    · simpa using hpne
    · cases hfalse
  unfold parse_fstab_line
  dsimp only
  rw [hparts]
  rw [if_neg (by simp)]
  have hJsplit : splitOnP (fun c => c = ',') (joinSep [','] e.options) = e.options := by
    refine splitOnP_joinSep _ ',' (by decide) e.options hopts ?_
    intro o ho c hc
    simpa using (goodOption_spec (hgo o ho)).2.2 c hc
  simp only [List.getD, List.get?_cons_zero, List.get?_cons_succ,
    Option.getD_some, List.length_cons, List.length_nil]
  rw [if_pos (by simpa using hJne), hJsplit]
  rw [if_pos (by exact ⟨by norm_num, hddig⟩), if_pos (by exact ⟨by norm_num, hpdig⟩)]
  rw [hdval, hpval]

/-- One step of the `parse_fstab` line loop. -/
theorem parseLines_cons (l : Str) (ls : List Str) (cur : Option Str) :
    parseLines (l :: ls) cur =
      if pyStrip l = [] then parseLines ls none
      else if strHasPre (pyStrip l) ['#'] = true then
        parseLines ls (some (pyStrip (pyStrip l).tail))
      else
        match parse_fstab_line (pyStrip l) cur with
        | some e => e :: parseLines ls none
        | none => parseLines ls none := rfl

theorem parseLines_render_line (e : FstabEntry) (rest : List Str)
    (cur : Option Str) (hwf : wellFormed e = true)
    (hv : (validate_entry e).1 = true) :
    parseLines (e.render :: rest) cur =
      { e with comment := cur } :: parseLines rest none := by
  obtain ⟨hsrc, -, -, -, -, -, -⟩ := (validate_entry_spec e).mp hv
  obtain ⟨-, hsh, -, -, -, -, -⟩ := wellFormed_spec hwf
  rw [parseLines_cons, render_strip e hwf hv, if_neg (render_ne_nil hsrc),
    if_neg (by simp [render_not_comment hsrc hsh]),
    parse_line_render e cur hwf hv]

theorem parseLines_entry_cons (e : FstabEntry) (rest : List Str)
    (hwf : wellFormed e = true) (hv : (validate_entry e).1 = true) :
    parseLines (entryLines e ++ rest) none = e :: parseLines rest none := by
  obtain ⟨-, -, -, -, -, -, hgc⟩ := wellFormed_spec hwf
  unfold entryLines
  cases hc : e.comment with
  | none =>
    dsimp only
    rw [List.nil_append, List.singleton_append,
      parseLines_render_line e rest none hwf hv, ← hc]
  | some c =>
    have hgc2 : goodComment (some c) = true := hc ▸ hgc
    obtain ⟨hcne, hch, hcl, -⟩ := goodComment_spec hgc2
    dsimp only
    rw [if_pos hcne]
    have hstripc : pyStrip ('#' :: ' ' :: c) = '#' :: ' ' :: c := by
      refine pyStrip_eq_self (by simp) rfl ?_
      rw [show ('#' :: ' ' :: c) = ['#', ' '] ++ c from rfl, getLastI_append hcne]
      exact hcl
    show parseLines (('#' :: ' ' :: c) :: e.render :: rest) none = _
    rw [parseLines_cons, hstripc, if_neg (by simp),
      if_pos (show strHasPre ('#' :: ' ' :: c) ['#'] = true from rfl),
      show ('#' :: ' ' :: c).tail = ' ' :: c from rfl,
      pyStrip_ws_cons (by decide) hcne hch hcl,
      parseLines_render_line e rest (some c) hwf hv, ← hc]

theorem parseLines_entries (rs : List FstabEntry)
    (h : ∀ e ∈ rs, (validate_entry e).1 = true ∧ wellFormed e = true) :
    parseLines (rs.flatMap entryLines ++ [[]]) none = rs := by
  induction rs with
  | nil => rfl
  | cons e rs2 ih =>
    rw [List.flatMap_cons, List.append_assoc,
      parseLines_entry_cons e _ (h e (by simp)).2 (h e (by simp)).1,
      ih (fun x hx => h x (by simp [hx]))]

theorem parseLines_header (rest : List Str) (cur : Option Str) :
    parseLines (headerLines ++ rest) cur = parseLines rest none := rfl

theorem splitOnP_joinNL (L : List Str) (hL : L ≠ [])
    (h : ∀ l ∈ L, ∀ c ∈ l, ¬ c = '\n') :
    splitOnP (fun c => c = '\n') (joinNL L ++ ['\n']) = L ++ [[]] := by
  induction L with
  | nil => exact absurd rfl hL
  | cons l L2 ih =>
    cases L2 with
    | nil =>
      show splitOnP _ (l ++ '\n' :: []) = [l, []]
      rw [splitOnP_append _ l [] '\n'
        (fun c hc => by simp [h l (by simp) c hc]) (by decide)]
      rfl
    | cons m M =>
      rw [show joinNL (l :: m :: M) = l ++ ['\n'] ++ joinNL (m :: M) from rfl,
        show l ++ ['\n'] ++ joinNL (m :: M) ++ ['\n'] =
          l ++ '\n' :: (joinNL (m :: M) ++ ['\n']) by simp,
        splitOnP_append _ l _ '\n'
          (fun c hc => by simp [h l (by simp) c hc]) (by decide),
        ih (by simp) (fun x hx c hc => h x (by simp [hx]) c hc)]
      rfl

/-- Every character of a rendered well-formed record line is non-whitespace
or the tab separator. -/
theorem render_chars {e : FstabEntry} (hwf : wellFormed e = true)
    (hv : (validate_entry e).1 = true) :
    ∀ c ∈ e.render, isPySpace c = false ∨ c = '\t' := by
  obtain ⟨-, -, -, -, hopts, hdump, hpass⟩ := (validate_entry_spec e).mp hv
  obtain ⟨hgs, -, hgm, hgf, -, hgo, -⟩ := wellFormed_spec hwf
  obtain ⟨-, hsws⟩ := goodField_spec hgs
  obtain ⟨-, hmws⟩ := goodField_spec hgm
  obtain ⟨-, hfws⟩ := goodField_spec hgf
  obtain ⟨-, hdws, -, -, -⟩ := intRepr_small hdump
  obtain ⟨-, hpws, -, -, -⟩ := intRepr_small hpass
  obtain ⟨-, hJws⟩ := joinSep_options_facts hopts hgo
  intro c hc
  rw [render_decomp e hopts] at hc
  simp only [List.mem_append, List.mem_cons] at hc
  rcases hc with h1 | rfl | h2 | rfl | h3 | rfl | h4 | rfl | h5 | rfl | h6
  · exact Or.inl (hsws c h1)
  · exact Or.inr rfl
  · exact Or.inl (hmws c h2)
  · exact Or.inr rfl
  · exact Or.inl (hfws c h3)
  · exact Or.inr rfl
  · exact Or.inl (hJws c h4)
  · exact Or.inr rfl
  · exact Or.inl (hdws c h5)
  · exact Or.inr rfl
  · exact Or.inl (hpws c h6)

/-- No generated line contains a newline. -/
theorem generated_lines_no_nl (rs : List FstabEntry)
    (h : ∀ e ∈ rs, (validate_entry e).1 = true ∧ wellFormed e = true) :
    ∀ l ∈ headerLines ++ rs.flatMap entryLines, ∀ c ∈ l, ¬ c = '\n' := by
  intro l hl c hc
  rcases List.mem_append.mp hl with hh | hf
  · simp only [headerLines, List.mem_cons] at hh
    rcases hh with rfl | rfl | hx
    · have hd : ∀ x ∈ "# /etc/fstab: static file system information".data,
          ¬ x = '\n' := by decide
      exact hd c hc
    · cases hc
    · cases hx
  · obtain ⟨e, he, hle⟩ := List.mem_flatMap.mp hf
    obtain ⟨hv, hwf⟩ := h e he
    unfold entryLines at hle
    rcases List.mem_append.mp hle with hcl | hrl
    · cases hcm : e.comment with
      | none => rw [hcm] at hcl; cases hcl
      | some cc =>
        rw [hcm] at hcl
        dsimp only at hcl
        have hgc2 : goodComment (some cc) = true :=
          hcm ▸ (wellFormed_spec hwf).2.2.2.2.2.2
        obtain ⟨hcne, -, -, hcnl⟩ := goodComment_spec hgc2
        rw [if_pos hcne] at hcl
        simp only [List.mem_singleton] at hcl
        subst hcl
        simp only [List.mem_cons] at hc
        rcases hc with rfl | rfl | hmem
        · decide
        · decide
        · exact hcnl c hmem
    · simp only [List.mem_singleton] at hrl
      subst hrl
      rcases render_chars hwf hv c hc with hws | rfl
      · exact not_nl_of_not_ws hws
      · decide

/-! ## Claim C2 -/

/-- C2 counterexample: a record accepted by `validate` whose source contains
a space serializes to a line that re-parses with the space as a field break:
the round trip does not return the record. -/
theorem C2_roundtrip_counterexample :
    (validate_entry
      { source := "a b".data, mountpoint := "/mnt/x".data,
        fstype := "ext4".data, options := ["defaults".data] }).1 = true ∧
    parse_fstab (generate_fstab_content
      [{ source := "a b".data, mountpoint := "/mnt/x".data,
         fstype := "ext4".data, options := ["defaults".data] }]) ≠
      [{ source := "a b".data, mountpoint := "/mnt/x".data,
         fstype := "ext4".data, options := ["defaults".data] }] := by
  exact ⟨by decide, by decide⟩

/-- C2 (amended): for every sequence of records that pass `validate` and are
additionally well-formed for the textual format (fields are non-empty ASCII
without whitespace, source does not begin with `#`, every option is
non-empty ASCII without whitespace or commas, and the comment is absent or a
non-empty ASCII string without newlines and without leading or trailing
whitespace), parsing the serialized full table -- header lines, per-record
comment lines, record lines -- yields records equal to the input in every
field. -/
theorem C2_roundtrip_wellFormed (rs : List FstabEntry)
    (h : ∀ e ∈ rs, (validate_entry e).1 = true ∧ wellFormed e = true) :
    parse_fstab (generate_fstab_content rs) = rs := by
  unfold parse_fstab generate_fstab_content
  rw [splitOnP_joinNL _ (by simp [headerLines]) (generated_lines_no_nl rs h),
    List.append_assoc, parseLines_header]
  exact parseLines_entries rs h

/-- Witness for C2 at a two-record sequence exercising comments, options and
nonzero dump/pass values. -/
theorem C2_roundtrip_wellFormed_witness :
    (∀ e ∈ [sampleRec1, sampleRec2],
      (validate_entry e).1 = true ∧ wellFormed e = true) ∧
    parse_fstab (generate_fstab_content [sampleRec1, sampleRec2]) =
      [sampleRec1, sampleRec2] := by
  refine ⟨by decide, ?_⟩
  exact C2_roundtrip_wellFormed _ (by decide)

end Mountrix
